import Mathlib

/-!
Verification development for the clawpot single-host microVM orchestrator.
Each definition below is a shallow embedding of a function of the Rust
source; theorems at the end of the file settle the specification claims
against these definitions.
-/

namespace Clawpot

/-- States of a VM, from `clawpot-driver/src/vm/lifecycle.rs` (re-exported
by `clawpot-common/src/vm`). -/
inductive VmState
  | notStarted
  | starting
  | running
  | stopping
  | stopped
  | error
deriving DecidableEq, Repr

/-- Validity of a state transition, translated arm by arm (in source order)
from the `match` inside `VmLifecycle::transition_to` in `lifecycle.rs`.
The final arm is the Rust guard `(old, new) if old == new => true` followed
by the catch-all `_ => false`. -/
def transitionValid : VmState → VmState → Bool
  | _, .error => true
  | .notStarted, .starting => true
  | .starting, .running => true
  | .running, .stopping => true
  | .stopping, .stopped => true
  | .stopped, .starting => true
  | .starting, .stopping => true
  | .starting, .stopped => true
  | old, new => old == new

/-- Model of `VmLifecycle::transition_to`: the Rust method assigns
`self.state = new_state` only after the validity check, so on error the
state is unchanged; we model it as returning the updated state on success. -/
def transitionTo (cur new : VmState) : Except String VmState :=
  if transitionValid cur new then .ok new
  else .error ("invalid state transition")

/-- Legal-transition set exactly as claim C2 states it: the seven listed
arrows plus any state to Error (written from the claim text, to be compared
with `transitionValid`, which is written from the source). -/
def claimLegalTransition (cur new : VmState) : Bool :=
  (new == .error) ||
  ((cur == .notStarted) && (new == .starting)) ||
  ((cur == .starting) && (new == .running)) ||
  ((cur == .running) && (new == .stopping)) ||
  ((cur == .stopping) && (new == .stopped)) ||
  ((cur == .stopped) && (new == .starting)) ||
  ((cur == .starting) && (new == .stopping)) ||
  ((cur == .starting) && (new == .stopped))

/-- Observable state of a `VmManager` (`clawpot-common/src/vm/manager.rs`):
its lifecycle state, whether a firecracker child process is held, and
whether the API socket file exists. -/
structure VmManager where
  lifecycle : VmState
  procAlive : Bool
  socketExists : Bool
deriving DecidableEq, Repr

/-- Model of `VmManager::stop`. The transition to `Stopping` is only a
warning on failure; `send_ctrl_alt_del`, the kill/wait of the child, and
the socket unlink never fail fatally; but the final transition to
`Stopped` is propagated with the question-mark operator, so its failure
makes `stop` return an error with the state unchanged. -/
def stopVm (m : VmManager) : Except String Unit × VmManager :=
  let l1 := match transitionTo m.lifecycle .stopping with
    | .ok s => s
    | .error _ => m.lifecycle
  let m1 : VmManager := { lifecycle := l1, procAlive := false, socketExists := false }
  match transitionTo m1.lifecycle .stopped with
  | .ok s => (.ok (), { m1 with lifecycle := s })
  | .error e => (.error e, m1)

/-- Numeric value of 192.168.100.0 as a 32-bit integer, as computed in
`ip_allocator.rs`. -/
def networkBase : Nat := 3232261120

/-- State of the IP allocator (`ip_allocator.rs`): a bitmap over the 253
allocatable addresses .2 through .254 plus the round-robin cursor. -/
structure IpAllocator where
  allocated : List Bool
  nextIndex : Nat
deriving DecidableEq, Repr

/-- Fresh allocator as built by `IpAllocator::new`. -/
def IpAllocator.fresh : IpAllocator :=
  { allocated := List.replicate 253 false, nextIndex := 0 }

/-- Scan of the bitmap exactly as the `for` loop in `IpAllocator::allocate`
does: try offsets 0, 1, ... in order from `next`, wrapping modulo the
length, and return the first index holding `false`. -/
def findFree (bits : List Bool) (next : Nat) : Option Nat :=
  ((List.range bits.length).find?
    (fun i => bits.getD ((next + i) % bits.length) true == false)).map
    (fun i => (next + i) % bits.length)

/-- Model of `IpAllocator::allocate`: round-robin scan from `next_index`;
on a hit, set the bit, advance the cursor one past the hit, and return
`network_base + 2 + index` (the numeric IPv4 address). -/
def IpAllocator.allocate (a : IpAllocator) : Except String (Nat × IpAllocator) :=
  match findFree a.allocated a.nextIndex with
  | some idx =>
      .ok (networkBase + 2 + idx,
        { allocated := a.allocated.set idx true,
          nextIndex := (idx + 1) % a.allocated.length })
  | none => .error ("No available IP addresses in the pool")

/-- Model of `IpAllocator::release` for IPv4 addresses as 32-bit numbers:
reject addresses outside `[base+2, base+254]`, then clear the bit. -/
def IpAllocator.release (a : IpAllocator) (ip : Nat) : Except String IpAllocator :=
  if ip < networkBase + 2 || networkBase + 254 < ip then
    .error ("IP address is not in the allocatable range")
  else if a.allocated.length ≤ ip - networkBase - 2 then
    .error ("IP address is out of range")
  else
    .ok { a with allocated := a.allocated.set (ip - networkBase - 2) false }

/-- One step of a client-visible allocator history. -/
inductive AllocOp
  | alloc
  | release (ip : Nat)

/-- Run of a sequence of allocate/release calls against the allocator;
a failing call leaves the state as the Rust methods do (unchanged). -/
def runAllocOps : List AllocOp → IpAllocator → IpAllocator
  | [], a => a
  | .alloc :: ops, a =>
      match a.allocate with
      | .ok (_, a2) => runAllocOps ops a2
      | .error _ => runAllocOps ops a
  | .release ip :: ops, a =>
      match a.release ip with
      | .ok a2 => runAllocOps ops a2
      | .error _ => runAllocOps ops a

/-- A network link as tracked by the kernel in the model: name, assigned
addresses (address, prefix length), and the up flag. -/
structure Link where
  name : String
  addrs : List (Nat × Nat)
  isUp : Bool
deriving DecidableEq, Repr

/-- Table an iptables rule lives in. -/
inductive IptTable
  | nat
  | filter
deriving DecidableEq, Repr

/-- An installed packet-filter rule: table, chain, and the match and target
argument list exactly as the code passes it to the iptables binary after
the chain argument. -/
structure IptRule where
  table : IptTable
  chain : String
  args : List String
deriving DecidableEq, Repr

/-- Host network state: links, the IPv4 forwarding sysctl, and the
installed rules in order of installation. -/
structure HostNet where
  links : List Link
  ipForward : Bool
  rules : List IptRule
deriving DecidableEq, Repr

/-- Whether a link of the given name exists (the `link().get().match_name`
probe at the top of `ensure_bridge` in `bridge.rs`). -/
def linkExists (st : HostNet) (name : String) : Bool :=
  st.links.any (fun l => l.name == name)

/-- Kernel handle lookup (`get_link_index` in `bridge.rs`): fails when no
link has the name. -/
def getLinkIdx (st : HostNet) (name : String) : Except String Nat :=
  match st.links.findIdx? (fun l => l.name == name) with
  | some i => .ok i
  | none => .error ("Link not found")

/-- Kernel effect of `link().add(LinkBridge::new(name))`: a new down link
with no addresses. -/
def addLink (st : HostNet) (name : String) : HostNet :=
  { st with links := st.links ++ [{ name := name, addrs := [], isUp := false }] }

/-- Kernel effect of `address().add(index, ip, prefix)`; the model addresses
links by name (the index is a handle resolved from the name). -/
def addAddr (st : HostNet) (name : String) (ip pfx : Nat) : HostNet :=
  { st with links := st.links.map (fun l =>
      if l.name == name then { l with addrs := l.addrs ++ [(ip, pfx)] } else l) }

/-- Kernel effect of `link().set(...up())`. -/
def setLinkUp (st : HostNet) (name : String) : HostNet :=
  { st with links := st.links.map (fun l =>
      if l.name == name then { l with isUp := true } else l) }

/-- Kernel effect of deleting a link (`link().del(index)`). -/
def delLink (st : HostNet) (name : String) : HostNet :=
  { st with links := st.links.eraseP (fun l => l.name == name) }

/-- Kernel effect of `iptables -A`: append the rule to its chain. -/
def addRule (st : HostNet) (r : IptRule) : HostNet :=
  { st with rules := st.rules ++ [r] }

/-- Kernel effect of `iptables -D`: remove the first matching rule, if any. -/
def delRule (st : HostNet) (r : IptRule) : HostNet :=
  { st with rules := st.rules.erase r }

/-- The `ensure_iptables_rule` helper of `iptables.rs`: `-C` check first,
`-A` append only when the rule is absent. -/
def ensureRule (st : HostNet) (r : IptRule) : HostNet :=
  if st.rules.contains r then st else addRule st r

/-- Effect of `enable_ip_forwarding` (write `1`, or tolerate the sysctl
being already enabled). -/
def enableIpForwarding (st : HostNet) : HostNet :=
  { st with ipForward := true }

/-- Dotted-quad rendering of an IPv4 address held as a 32-bit number. -/
def ipv4Str (ip : Nat) : String :=
  toString (ip / 16777216 % 256) ++ "." ++ toString (ip / 65536 % 256) ++ "." ++
  toString (ip / 256 % 256) ++ "." ++ toString (ip % 256)

/-- The NAT PREROUTING redirect rule built by both
`add_proxy_redirect_rules` / `add_egress_filter_rules` and their `ensure`
variants in `iptables.rs` (identical table, chain, and match arguments). -/
def redirectRule (bridge proto dport toport : String) : IptRule :=
  { table := .nat, chain := "PREROUTING",
    args := ["-i", bridge, "-p", proto, "--dport", dport, "-j", "REDIRECT", "--to-port", toport] }

/-- The final FORWARD drop rule of `add_egress_filter_rules` /
`ensure_egress_filter_rules`. -/
def dropAllRule (bridge : String) : IptRule :=
  { table := .filter, chain := "FORWARD", args := ["-i", bridge, "-j", "DROP"] }

/-- The per-NIC source-IP pin of `add_source_ip_rule`:
`iptables -A FORWARD -i <tap> ! -s <ip> -j DROP`. -/
def pinRule (tap : String) (ip : Nat) : IptRule :=
  { table := .filter, chain := "FORWARD",
    args := ["-i", tap, "!", "-s", ipv4Str ip, "-j", "DROP"] }

/-- Model of `add_proxy_redirect_rules` (unconditional `-A`). -/
def addProxyRedirectRules (st : HostNet) (bridge : String) : HostNet :=
  addRule (addRule st (redirectRule bridge ("tcp") ("80") ("10080")))
    (redirectRule bridge ("tcp") ("443") ("10443"))

/-- Model of `add_egress_filter_rules` (unconditional `-A`, drop last). -/
def addEgressFilterRules (st : HostNet) (bridge : String) : HostNet :=
  addRule (addRule (addRule st (redirectRule bridge ("udp") ("53") ("10053")))
    (redirectRule bridge ("tcp") ("53") ("10053"))) (dropAllRule bridge)

/-- Model of `ensure_proxy_redirect_rules` (`-C` before `-A`). -/
def ensureProxyRedirectRules (st : HostNet) (bridge : String) : HostNet :=
  ensureRule (ensureRule st (redirectRule bridge ("tcp") ("80") ("10080")))
    (redirectRule bridge ("tcp") ("443") ("10443"))

/-- Model of `ensure_egress_filter_rules` (`-C` before `-A`). -/
def ensureEgressFilterRules (st : HostNet) (bridge : String) : HostNet :=
  ensureRule (ensureRule (ensureRule st (redirectRule bridge ("udp") ("53") ("10053")))
    (redirectRule bridge ("tcp") ("53") ("10053"))) (dropAllRule bridge)

/-- Model of `create_bridge` in `bridge.rs`: add the bridge link, resolve
its index, assign the gateway address with prefix 24, bring it up, enable
forwarding, then append the redirect and egress rule sets. -/
def createBridge (st : HostNet) (name : String) (gatewayIp : Nat) : Except String HostNet :=
  let st1 := addLink st name
  match getLinkIdx st1 name with
  | .error e => .error e
  | .ok _ =>
    let st2 := setLinkUp (addAddr st1 name gatewayIp 24) name
    let st3 := enableIpForwarding st2
    .ok (addEgressFilterRules (addProxyRedirectRules st3 name) name)

/-- Model of `ensure_bridge` in `bridge.rs`: create the bridge when the
name probe misses, then always enable forwarding and idempotently ensure
the redirect and egress rules. -/
def ensureBridge (st : HostNet) (name : String) (gatewayIp : Nat) : Except String HostNet :=
  let step1 : Except String HostNet :=
    if linkExists st name then .ok st else createBridge st name gatewayIp
  match step1 with
  | .error e => .error e
  | .ok st1 =>
    let st2 := enableIpForwarding st1
    .ok (ensureEgressFilterRules (ensureProxyRedirectRules st2 ("br0")) ("br0"))

/-- NetworkManager::ensure_bridge (`network/mod.rs`): the server invokes
the bridge setup with the fixed name `br0` and gateway 192.168.100.1. -/
def nmEnsureBridge (st : HostNet) : Except String HostNet :=
  ensureBridge st ("br0") (networkBase + 1)

/-- Host state with no links and no rules. -/
def freshHost : HostNet :=
  { links := [], ipForward := false, rules := [] }

/-- Outcomes of the fallible host-side primitives that `create_vm` drives
(everything the environment, not the program, decides). -/
structure CreateEnv where
  tapOk : Bool
  attachOk : Bool
  pinOk : Bool
  startOk : Bool
  agentOk : Bool
deriving DecidableEq, Repr

/-- Model of `NetworkManager::create_tap` (`network/mod.rs` composed with
`tap.rs` and `iptables.rs`): TUNSETIFF ioctl creates the device and brings
it up, the netlink call attaches it to the bridge, and the iptables append
installs the source-IP pin; a failure after the ioctl leaves the created
device behind (the code has no rollback inside this function). -/
def nmCreateTap (env : CreateEnv) (tapName : String) (ip : Nat) (net : HostNet) :
    Except String Unit × HostNet :=
  if !env.tapOk then (.error ("ioctl TUNSETIFF failed"), net)
  else
    let net1 := setLinkUp (addLink net tapName) tapName
    if !env.attachOk then (.error ("Failed to attach TAP to bridge"), net1)
    else if !env.pinOk then (.error ("Failed to add iptables rule"), net1)
    else (.ok (), addRule net1 (pinRule tapName ip))

/-- Model of `NetworkManager::delete_tap`: best-effort removal of the pin
rule, then deletion of the device. -/
def nmDeleteTap (tapName : String) (ip : Nat) (net : HostNet) : HostNet :=
  delLink (delRule net (pinRule tapName ip)) tapName

/-- Server-side state touched by `create_vm`: the host network, the IP
allocator, and the VM registry (ids of registered VMs). -/
structure SrvState where
  net : HostNet
  alloc : IpAllocator
  registry : List Nat
deriving DecidableEq, Repr

/-- The components claim C1 ranges over: the allocator bitmap, the links
(TAP devices), the packet-filter rules (source-IP pins), and the registry. -/
def touched (st : SrvState) : List Bool × List Link × List IptRule × List Nat :=
  (st.alloc.allocated, st.net.links, st.net.rules, st.registry)

/-- Model of `ClawpotServiceImpl::create_vm` (`grpc/service.rs`): allocate
an IP; create the TAP (on failure release the IP and return); start the VM
(on failure delete the TAP, release the IP and return); wait for the agent
(non-fatal); insert into the registry (on failure return with no rollback).
The generated VM id and derived TAP name are parameters. -/
def createVm (env : CreateEnv) (id : Nat) (tapName : String) (st : SrvState) :
    Except String (Nat × Nat) × SrvState :=
  match st.alloc.allocate with
  | .error e => (.error ("No available IP addresses: " ++ e), st)
  | .ok (ip, alloc1) =>
    let st1 : SrvState := { st with alloc := alloc1 }
    match nmCreateTap env tapName ip st1.net with
    | (.error e, net1) =>
        let alloc2 := match alloc1.release ip with
          | .ok a => a
          | .error _ => alloc1
        (.error ("Failed to create TAP device: " ++ e),
         { st1 with net := net1, alloc := alloc2 })
    | (.ok _, net2) =>
      let st2 : SrvState := { st1 with net := net2 }
      if !env.startOk then
        let net3 := nmDeleteTap tapName ip st2.net
        let alloc2 := match alloc1.release ip with
          | .ok a => a
          | .error _ => alloc1
        (.error ("Failed to start VM"), { st2 with net := net3, alloc := alloc2 })
      else
        if st2.registry.contains id then
          (.error ("Failed to register VM"), st2)
        else
          (.ok (id, ip), { st2 with registry := st2.registry ++ [id] })

/-- Server state before any VM exists. -/
def freshSrv : SrvState :=
  { net := freshHost, alloc := IpAllocator.fresh, registry := [] }

/-- Model of `build_refused_response` in `dns_proxy.rs`: packets shorter
than 12 bytes give an empty reply; otherwise copy the query and rewrite
byte 2 as `(b | 0x80) & 0xFD`, byte 3 as `(b & 0xF0) | 0x05`, and zero
bytes 6 through 11. -/
def buildRefusedResponse (query : List Nat) : List Nat :=
  if query.length < 12 then []
  else
    (List.range query.length).map (fun i =>
      let b := query.getD i 0
      if i == 2 then (b ||| 128) &&& 253
      else if i == 3 then (b &&& 240) ||| 5
      else if 6 ≤ i && i < 12 then 0
      else b)

/-- Guest-visible outcome of one HTTP proxy request. -/
inductive HttpOutcome
  | forbidden (reason : String)
  | upstream (status : Nat) (body : String)
  | badGateway (msg : String)
deriving DecidableEq, Repr

/-- Results of the collaborator calls `handle_request_inner` makes: the
registry lookup, the request-log insert, the authorize RPC, and the
upstream dispatch. -/
structure HttpEnv where
  findByIp : Option Nat
  requestId : Nat
  authResult : Except String (Bool × String)
  upstreamResult : Except String (Nat × String)

/-- Model of `handle_request_inner` in `http_proxy.rs` from the authorize
step on: a failed authorize call is collapsed by `unwrap_or` to
`(false, "auth error")`; deny returns 403 with the reason in the body;
otherwise the upstream result is forwarded, upstream failure propagating
as an error. -/
def handleRequestInner (env : HttpEnv) : Except String HttpOutcome :=
  let decision := match env.authResult with
    | .ok p => p
    | .error _ => (false, "auth error")
  if !decision.1 then .ok (.forbidden ("Denied: " ++ decision.2))
  else match env.upstreamResult with
    | .error e => .error ("Upstream request failed: " ++ e)
    | .ok r => .ok (.upstream r.1 r.2)

/-- Model of `handle_request` in `http_proxy.rs`: any error from the inner
handler becomes a 502 Bad Gateway response to the guest. -/
def handleRequest (env : HttpEnv) : HttpOutcome :=
  match handleRequestInner env with
  | .ok r => r
  | .error e => .badGateway ("Proxy error: " ++ e)

/-- Results of the collaborator calls `process_dns_query` makes. -/
structure DnsEnv where
  findByIp : Option Nat
  requestId : Nat
  authResult : Except String (Bool × String)
  upstreamResult : Except String (List Nat)

/-- Model of `process_dns_query` in `dns_proxy.rs` from the authorize step
on: a failed authorize call is collapsed by `unwrap_or` to
`(false, "auth error")`; deny returns the synthesized REFUSED response;
otherwise the upstream exchange result is returned. -/
def processDnsQuery (env : DnsEnv) (packet : List Nat) : Except String (List Nat) :=
  let decision := match env.authResult with
    | .ok p => p
    | .error _ => (false, "auth error")
  if !decision.1 then .ok (buildRefusedResponse packet)
  else env.upstreamResult

/-- State values of the generated protobuf `VmState` enum used by the RPC
surface; only `Running` is ever written by the server. -/
inductive ProtoVmState
  | notStarted
  | starting
  | running
  | stopping
  | stopped
  | error
deriving DecidableEq, Repr

/-- Registry record (`vm/registry.rs` VmEntry), with the live manager
represented by its lifecycle state. -/
structure VmEntry where
  id : Nat
  managerState : VmState
  ipAddress : Nat
  tapName : String
  vcpuCount : Nat
  memSizeMib : Nat
  createdAt : Nat
deriving DecidableEq, Repr

/-- The per-VM record of the `ListVMs` reply (`VmInfo`). -/
structure VmInfo where
  vmId : Nat
  state : ProtoVmState
  ipAddress : Nat
  vcpuCount : Nat
  memSizeMib : Nat
  createdAt : Nat
deriving DecidableEq, Repr

/-- Model of `VmRegistry::list`: the summary tuples, without the manager. -/
def registryList (entries : List VmEntry) : List (Nat × Nat × String × Nat × Nat × Nat) :=
  entries.map (fun e => (e.id, e.ipAddress, e.tapName, e.vcpuCount, e.memSizeMib, e.createdAt))

/-- Model of `list_v_ms` in `grpc/service.rs`: map each summary tuple to a
`VmInfo` whose state field is the constant `ProtoVmState::Running`. -/
def listVMs (entries : List VmEntry) : List VmInfo :=
  (registryList entries).map (fun t =>
    { vmId := t.1, state := .running, ipAddress := t.2.1, vcpuCount := t.2.2.2.1,
      memSizeMib := t.2.2.2.2.1, createdAt := t.2.2.2.2.2 })

/-- JSON values as modelled for `serde_json::Value`. Integer numbers are
carried exactly; a number with a fraction or exponent is collapsed to
`numNonInt`, on which `as_u64` is `none`, matching serde where such
numbers become floats and `as_u64` fails. -/
inductive Json where
  | null
  | bool (b : Bool)
  | num (n : Int)
  | numNonInt
  | str (s : String)
  | arr (xs : List Json)
  | obj (fields : List (String × Json))

/-- Lookup of an object member (`Value::get` with a string key). -/
def Json.get : Json → String → Option Json
  | .obj fields, key => (fields.find? (fun p => p.1 == key)).map (fun p => p.2)
  | _, _ => none

/-- Model of `Value::as_str`. -/
def Json.asStr : Json → Option String
  | .str s => some s
  | _ => none

/-- Model of `Value::as_u64`: defined on non-negative integers below 2^64. -/
def Json.asU64 : Json → Option Nat
  | .num n => if 0 ≤ n ∧ n < 18446744073709551616 then some n.toNat else none
  | _ => none

/-- Decimal digits to a natural number. -/
def digitsToNat (ds : List Char) : Nat :=
  ds.foldl (fun n c => n * 10 + (c.toNat - 48)) 0

/-- JSON-pointer array index: digits with no redundant leading zero. -/
def strToIdx (s : String) : Option Nat :=
  if s == "0" then some 0
  else if s.data ≠ [] && s.data.all Char.isDigit && s.data.head? != some '0' then
    some (digitsToNat s.data)
  else none

/-- Steps of `Value::pointer` once the path is split at slashes. -/
def Json.pointerSteps : Json → List String → Option Json
  | j, [] => some j
  | .obj fields, k :: ks =>
      match (fields.find? (fun p => p.1 == k)).map (fun p => p.2) with
      | some j2 => Json.pointerSteps j2 ks
      | none => none
  | .arr xs, k :: ks =>
      match strToIdx k with
      | some i =>
          match xs.get? i with
          | some j2 => Json.pointerSteps j2 ks
          | none => none
      | none => none
  | _, _ :: _ => none

/-- ASCII whitespace (the inputs under study are ASCII, so this coincides
with the Unicode trimming the Rust code uses). -/
def isWsChar (c : Char) : Bool :=
  c == ' ' || c == '\t' || c == '\n' || c == '\r'

/-- Model of `str::trim` on character lists. -/
def trimChars (cs : List Char) : List Char :=
  ((cs.dropWhile isWsChar).reverse.dropWhile isWsChar).reverse

/-- Worker for `str::split` on a nonempty separator, with fuel bounded by
the input length. -/
def splitOnAuxC (sep : List Char) : Nat → List Char → List Char → List (List Char)
  | 0, cs, cur => [cur.reverse ++ cs]
  | _ + 1, [], cur => [cur.reverse]
  | f + 1, c :: cs, cur =>
    if sep.isPrefixOf (c :: cs) then
      cur.reverse :: splitOnAuxC sep f ((c :: cs).drop sep.length) []
    else
      splitOnAuxC sep f cs (c :: cur)

/-- Model of `str::split` by a string separator. -/
def splitOnC (cs sep : List Char) : List (List Char) :=
  if sep.isEmpty then [cs] else splitOnAuxC sep (cs.length + 1) cs []

/-- Model of `Value::pointer` (tilde escapes are not used by the code under
study and are not modelled). -/
def Json.pointer (j : Json) (p : String) : Option Json :=
  match p.data with
  | [] => some j
  | '/' :: rest => Json.pointerSteps j ((splitOnC rest ['/']).map String.mk)
  | _ => none

/-- Whitespace skipping of the JSON grammar. -/
def skipWs : List Char → List Char
  | c :: cs =>
      if c == ' ' || c == '\n' || c == '\t' || c == '\r' then skipWs cs else c :: cs
  | [] => []

/-- Longest digit run at the head of the input. -/
def takeDigits : List Char → List Char × List Char
  | [] => ([], [])
  | c :: cs =>
      if c.isDigit then
        let r := takeDigits cs
        (c :: r.1, r.2)
      else ([], c :: cs)

/-- Body of a JSON string literal after the opening quote; handles the
standard single-character escapes and `\u` hex escapes. -/
def parseStrBody (fuel : Nat) (cs : List Char) (acc : List Char) :
    Option (String × List Char) :=
  match fuel, cs with
  | 0, _ => none
  | _, [] => none
  | f + 1, c :: rest =>
    if c == '"' then some (String.mk acc.reverse, rest)
    else if c == '\\' then
      match rest with
      | 'u' :: h1 :: h2 :: h3 :: h4 :: rest2 =>
          let isHex := fun (h : Char) =>
            h.isDigit || (97 ≤ h.toNat && h.toNat ≤ 102) || (65 ≤ h.toNat && h.toNat ≤ 70)
          if isHex h1 && isHex h2 && isHex h3 && isHex h4 then
            let hv := fun (h : Char) =>
              if h.isDigit then h.toNat - 48
              else if 97 ≤ h.toNat then h.toNat - 87 else h.toNat - 55
            parseStrBody f rest2 (Char.ofNat (((hv h1 * 16 + hv h2) * 16 + hv h3) * 16 + hv h4) :: acc)
          else none
      | e :: rest2 =>
          let dec : Option Char :=
            if e == 'n' then some '\n'
            else if e == 't' then some '\t'
            else if e == 'r' then some '\r'
            else if e == 'b' then some (Char.ofNat 8)
            else if e == 'f' then some (Char.ofNat 12)
            else if e == '"' then some '"'
            else if e == '\\' then some '\\'
            else if e == '/' then some '/'
            else none
          match dec with
          | some d => parseStrBody f rest2 (d :: acc)
          | none => none
      | [] => none
    else parseStrBody f rest (c :: acc)

/-- Numeric literal at the head of the input (after an optional minus sign
already consumed): integer part, then an optional fraction and exponent
which make the value a non-integer float. -/
def parseNumTail (neg : Bool) (cs : List Char) : Option (Json × List Char) :=
  let d := takeDigits cs
  if d.1.isEmpty then none
  else
    let n : Int := Int.ofNat (digitsToNat d.1)
    let v : Int := if neg then -n else n
    match d.2 with
    | '.' :: cs2 =>
        let d2 := takeDigits cs2
        if d2.1.isEmpty then none
        else
          match d2.2 with
          | 'e' :: cs3 => (parseExpTail cs3).map (fun r => (Json.numNonInt, r))
          | 'E' :: cs3 => (parseExpTail cs3).map (fun r => (Json.numNonInt, r))
          | r => some (Json.numNonInt, r)
    | 'e' :: cs2 => (parseExpTail cs2).map (fun r => (Json.numNonInt, r))
    | 'E' :: cs2 => (parseExpTail cs2).map (fun r => (Json.numNonInt, r))
    | r => some (Json.num v, r)
where
  /-- Exponent part: optional sign then digits. -/
  parseExpTail (cs : List Char) : Option (List Char) :=
    let cs2 := match cs with
      | '+' :: r => r
      | '-' :: r => r
      | r => r
    let d := takeDigits cs2
    if d.1.isEmpty then none else some d.2

mutual

/-- Recursive-descent JSON value parser with explicit fuel. -/
def parseVal : Nat → List Char → Option (Json × List Char)
  | 0, _ => none
  | f + 1, cs =>
    match skipWs cs with
    | [] => none
    | c :: rest =>
      if c == 'n' then
        match rest with
        | 'u' :: 'l' :: 'l' :: r => some (.null, r)
        | _ => none
      else if c == 't' then
        match rest with
        | 'r' :: 'u' :: 'e' :: r => some (.bool true, r)
        | _ => none
      else if c == 'f' then
        match rest with
        | 'a' :: 'l' :: 's' :: 'e' :: r => some (.bool false, r)
        | _ => none
      else if c == '"' then
        (parseStrBody (f + 1) rest []).map (fun p => (.str p.1, p.2))
      else if c == '-' then parseNumTail true rest
      else if c.isDigit then parseNumTail false (c :: rest)
      else if c == '[' then
        match skipWs rest with
        | ']' :: r => some (.arr [], r)
        | r2 => (parseArrItems f r2 []).map (fun p => (.arr p.1, p.2))
      else if c == '{' then
        match skipWs rest with
        | '}' :: r => some (.obj [], r)
        | r2 => (parseObjItems f r2 []).map (fun p => (.obj p.1, p.2))
      else none

/-- Comma-separated array items up to the closing bracket. -/
def parseArrItems (fuel : Nat) (cs : List Char) (acc : List Json) :
    Option (List Json × List Char) :=
  match fuel with
  | 0 => none
  | f + 1 =>
    match parseVal f cs with
    | none => none
    | some (v, rest) =>
      match skipWs rest with
      | ',' :: r2 => parseArrItems f r2 (acc ++ [v])
      | ']' :: r2 => some (acc ++ [v], r2)
      | _ => none

/-- Comma-separated object members up to the closing brace. -/
def parseObjItems (fuel : Nat) (cs : List Char) (acc : List (String × Json)) :
    Option (List (String × Json) × List Char) :=
  match fuel with
  | 0 => none
  | f + 1 =>
    match skipWs cs with
    | '"' :: r1 =>
      match parseStrBody (f + 1) r1 [] with
      | none => none
      | some (key, r2) =>
        match skipWs r2 with
        | ':' :: r3 =>
          match parseVal f r3 with
          | none => none
          | some (v, r4) =>
            match skipWs r4 with
            | ',' :: r5 => parseObjItems f r5 (acc ++ [(key, v)])
            | '}' :: r5 => some (acc ++ [(key, v)], r5)
            | _ => none
        | _ => none
    | _ => none

end

/-- Model of `serde_json::from_str`: parse one value and require only
whitespace to remain. -/
def jsonParse (s : String) : Option Json :=
  match parseVal (2 * s.length + 8) s.data with
  | some (v, rest) => if skipWs rest == [] then some v else none
  | none => none

/-- One parsed Server-Sent Event (`SseEvent` in `llm.rs`). -/
structure SseEvent where
  eventType : Option String
  data : String
deriving DecidableEq, Repr

/-- Per-line step of the frame loop in `parse_sse`: comment lines are
skipped, an `event:` line sets the event type, a `data:` line appends the
trimmed payload unless it is the `[DONE]` sentinel. -/
def sseLineStep (st : Option String × List String) (line : List Char) :
    Option String × List String :=
  if line.head? == some ':' then st
  else if List.isPrefixOf ['e', 'v', 'e', 'n', 't', ':'] line then
    (some (String.mk (trimChars (line.drop 6))), st.2)
  else if List.isPrefixOf ['d', 'a', 't', 'a', ':'] line then
    let d := trimChars (line.drop 5)
    if d == ['[', 'D', 'O', 'N', 'E', ']'] then st else (st.1, st.2 ++ [String.mk d])
  else st

/-- Model of `str::lines` for one frame: split at newlines, strip a
trailing carriage return from each line. -/
def frameLines (frame : List Char) : List (List Char) :=
  (splitOnC frame ['\n']).map (fun l =>
    if l.getLast? == some '\r' then l.dropLast else l)

/-- Model of `parse_sse` in `llm.rs`: split the body at blank lines, trim
each frame, run the line loop, and keep frames with nonempty data, the
data parts joined with newlines. -/
def parseSse (text : String) : List SseEvent :=
  (splitOnC text.data ['\n', '\n']).foldl (fun events frame =>
    let f := trimChars frame
    if f.isEmpty then events
    else
      let st := (frameLines f).foldl sseLineStep (none, [])
      if st.2.isEmpty then events
      else events ++ [{ eventType := st.1, data := String.intercalate ("\n") st.2 }]) []

/-- Accumulator of `reassemble_anthropic_messages`. -/
structure AnthropicAcc where
  id : Json
  model : Option String
  inputTokens : Option Nat
  outputTokens : Option Nat
  stopReason : Json
  contentText : String

/-- Per-event step of the loop in `reassemble_anthropic_messages`:
unparseable data is skipped; `message_start` captures id, model and input
tokens; `content_block_delta` appends `delta.text` when `delta.type` is
`text_delta`; `message_delta` captures `delta.stop_reason` and reassigns
the output-token count from `/usage/output_tokens`. -/
def anthropicStep (acc : AnthropicAcc) (e : SseEvent) : AnthropicAcc :=
  let name := e.eventType.getD ("")
  match jsonParse e.data with
  | none => acc
  | some json =>
    if name == "message_start" then
      match json.get ("message") with
      | some msg =>
        { acc with
          id := (msg.get ("id")).getD Json.null,
          model := (msg.get ("model")).bind Json.asStr,
          inputTokens := (msg.pointer ("/usage/input_tokens")).bind Json.asU64 }
      | none => acc
    else if name == "content_block_delta" then
      match json.get ("delta") with
      | some delta =>
        if ((delta.get ("type")).bind Json.asStr) == some ("text_delta") then
          match (delta.get ("text")).bind Json.asStr with
          | some t => { acc with contentText := acc.contentText ++ t }
          | none => acc
        else acc
      | none => acc
    else if name == "message_delta" then
      let acc2 := match json.get ("delta") with
        | some delta =>
          match delta.get ("stop_reason") with
          | some sr => { acc with stopReason := sr }
          | none => acc
        | none => acc
      { acc2 with outputTokens := (json.pointer ("/usage/output_tokens")).bind Json.asU64 }
    else acc

/-- JSON rendering of an optional string, as the `json!` macro serializes
an `Option<String>`. -/
def optStrJson : Option String → Json
  | some s => .str s
  | none => .null

/-- JSON rendering of an optional token count. -/
def optNumJson : Option Nat → Json
  | some n => .num n
  | none => .null

/-- Model of `reassemble_anthropic_messages` in `llm.rs`: fold the event
loop, then build the synthetic response object and return it with the
model name and token counts. -/
def reassembleAnthropicMessages (events : List SseEvent) :
    Json × Option String × Option Nat × Option Nat :=
  let acc := events.foldl anthropicStep
    { id := Json.null, model := none, inputTokens := none, outputTokens := none,
      stopReason := Json.null, contentText := "" }
  (Json.obj [("id", acc.id), ("model", optStrJson acc.model),
      ("stop_reason", acc.stopReason),
      ("content", Json.arr [Json.obj [("type", Json.str ("text")),
        ("text", Json.str acc.contentText)]]),
      ("usage", Json.obj [("input_tokens", optNumJson acc.inputTokens),
        ("output_tokens", optNumJson acc.outputTokens)])],
   acc.model, acc.inputTokens, acc.outputTokens)

/-- Substring test (`str::contains` on string patterns). -/
def containsSubstr (s pat : String) : Bool :=
  (List.range (s.data.length + 1)).any (fun i => pat.data.isPrefixOf (s.data.drop i))

/-- Model of `process_response` in `llm.rs` for the Anthropic `messages`
endpoint: a content type containing `text/event-stream` selects SSE
reassembly; otherwise the body is parsed as one JSON document and the
model and token counts are extracted from it. -/
def processResponseMessages (contentType : Option String) (body : String) :
    Json × Option String × Option Nat × Option Nat :=
  let isStreaming := match contentType with
    | some ct => containsSubstr ct ("text/event-stream")
    | none => false
  if isStreaming then reassembleAnthropicMessages (parseSse body)
  else
    let json := (jsonParse body).getD Json.null
    let model := (json.get ("model")).bind Json.asStr
    let inputT := ((json.pointer ("/usage/input_tokens")).orElse
      (fun _ => json.pointer ("/usage/prompt_tokens"))).bind Json.asU64
    let outputT := ((json.pointer ("/usage/output_tokens")).orElse
      (fun _ => json.pointer ("/usage/completion_tokens"))).bind Json.asU64
    (json, model, inputT, outputT)

/-- Text contributed by one SSE event to the reassembled content: nonempty
exactly for a parseable `content_block_delta` whose delta is a `text_delta`
with a string text (mirrors the branch structure of `anthropicStep`). -/
def textDeltaOf (e : SseEvent) : String :=
  match jsonParse e.data with
  | none => ""
  | some json =>
    if e.eventType.getD ("") == "message_start" then ""
    else if e.eventType.getD ("") == "content_block_delta" then
      match json.get ("delta") with
      | some delta =>
        if ((delta.get ("type")).bind Json.asStr) == some ("text_delta") then
          match (delta.get ("text")).bind Json.asStr with
          | some t => t
          | none => ""
        else ""
      | none => ""
    else ""

/-- Output-token update contributed by one SSE event: a parseable
`message_delta` replaces the running value with its `/usage/output_tokens`;
every other event keeps the previous value (mirrors the branch structure
of `anthropicStep`). -/
def messageDeltaTokens (e : SseEvent) (prev : Option Nat) : Option Nat :=
  match jsonParse e.data with
  | none => prev
  | some json =>
    if e.eventType.getD ("") == "message_start" then prev
    else if e.eventType.getD ("") == "content_block_delta" then prev
    else if e.eventType.getD ("") == "message_delta" then
      (json.pointer ("/usage/output_tokens")).bind Json.asU64
    else prev

/-- The SSE body of the LLM streaming scenario of the claim: a
`message_start`, two `content_block_delta` events carrying `Hello ` and
`world`, and a `message_delta` with stop reason `end_turn` and
85 output tokens. -/
def sseScenarioBody : String :=
  "event: message_start\ndata: \x7b\"type\":\"message_start\",\"message\":\x7b\"id\":\"msg_01\",\"model\":\"claude-sonnet-4\",\"usage\":\x7b\"input_tokens\":150\x7d\x7d\x7d\n\n" ++
  "event: content_block_delta\ndata: \x7b\"delta\":\x7b\"type\":\"text_delta\",\"text\":\"Hello \"\x7d\x7d\n\n" ++
  "event: content_block_delta\ndata: \x7b\"delta\":\x7b\"type\":\"text_delta\",\"text\":\"world\"\x7d\x7d\n\n" ++
  "event: message_delta\ndata: \x7b\"delta\":\x7b\"stop_reason\":\"end_turn\"\x7d,\"usage\":\x7b\"output_tokens\":85\x7d\x7d\n\n"

/-- Observable effect of one `transition_to` call on the stored state: the
new state on success, the unchanged current state on failure. -/
def lifecycleStep (cur new : VmState) : VmState :=
  match transitionTo cur new with
  | .ok s => s
  | .error _ => cur

/-- The five packet-filter rules the bridge setup actually installs for a
bridge: the four NAT redirects and the final FORWARD drop. -/
def bridgeRuleSet (bridge : String) : List IptRule :=
  [redirectRule bridge ("tcp") ("80") ("10080"),
   redirectRule bridge ("tcp") ("443") ("10443"),
   redirectRule bridge ("udp") ("53") ("10053"),
   redirectRule bridge ("tcp") ("53") ("10053"),
   dropAllRule bridge]

/-- Rules present after running the bridge setup on a host with no links
and no rules. -/
def bridgeSetupResultRules : List IptRule :=
  match nmEnsureBridge freshHost with
  | .ok st => st.rules
  | .error _ => []

/-- Environment in which the netlink attach of the TAP device to the
bridge fails and every other host primitive succeeds. -/
def envAttachFail : CreateEnv :=
  { tapOk := true, attachOk := false, pinOk := true, startOk := true, agentOk := true }

/-- Environment in which every host primitive succeeds. -/
def envAllOk : CreateEnv :=
  { tapOk := true, attachOk := true, pinOk := true, startOk := true, agentOk := true }

/-- A minimal 12-byte DNS query whose flags byte 2 has the AA bit (0x04)
set and nothing else. -/
def refusedFailingQuery : List Nat :=
  [0, 1, 4, 0, 0, 1, 0, 0, 0, 0, 0, 0]

/-! Helper lemmas. -/

theorem set_false_of_getD_false :
    ∀ (l : List Bool) (i : Nat), l.getD i true = false → l.set i false = l
  | [], i, h => by simp at h
  | x :: xs, 0, h => by simp_all
  | x :: xs, n + 1, h => by
      simp only [List.getD_cons_succ] at h
      simp [set_false_of_getD_false xs n h]

theorem getD_set_self_bool (l : List Bool) (i : Nat) (b d : Bool) (h : i < l.length) :
    (l.set i b).getD i d = b := by
  simp [List.getD_eq_getElem?_getD, List.getElem?_set_self h]

/-! Claim C2. -/

/-- Claim C2 counterexample: the code accepts the same-state transition
Running to Running (the Rust guard arm `old == new`), which is outside the
legal set the claim enumerates; the claim says it must fail. -/
theorem claim_C2_counterexample :
    (transitionTo VmState.running VmState.running).isOk = true ∧
    claimLegalTransition VmState.running VmState.running = false := by
  decide

/-- Claim C2 (amended): `transition_to` succeeds exactly when the pair is
in the claimed legal set or the two states are equal (a same-state no-op),
and a failed transition leaves the stored state unchanged. -/
theorem claim_C2_transitions (c n : VmState) :
    (transitionTo c n).isOk = (claimLegalTransition c n || c == n) ∧
    ((transitionTo c n).isOk = false → lifecycleStep c n = c) := by
  cases c <;> cases n <;> decide

/-- Claim C2 witness: a concrete illegal transition (Running to
NotStarted) fails and the state survives unchanged. -/
theorem claim_C2_witness :
    lifecycleStep VmState.running VmState.notStarted = VmState.running :=
  (claim_C2_transitions VmState.running VmState.notStarted).2 (by decide)

/-! Claim C8. -/

/-- Claim C8 counterexample: `stop` on a manager still in NotStarted
returns an error (the final transition to Stopped is propagated) and the
observed state is not Stopped. -/
theorem claim_C8_counterexample :
    (stopVm { lifecycle := VmState.notStarted, procAlive := true, socketExists := true }).1.isOk
      = false ∧
    (stopVm { lifecycle := VmState.notStarted, procAlive := true, socketExists := true }).2.lifecycle
      ≠ VmState.stopped := by
  decide

/-- Claim C8 (amended): `stop` returns success and leaves the manager
observed as Stopped (child killed, socket removed) from every state except
NotStarted and Error; from those two states it returns an error and the
lifecycle state is unchanged. -/
theorem claim_C8_stop (m : VmManager) :
    (m.lifecycle ≠ VmState.notStarted ∧ m.lifecycle ≠ VmState.error →
      (stopVm m).1.isOk = true ∧ (stopVm m).2.lifecycle = VmState.stopped ∧
      (stopVm m).2.procAlive = false ∧ (stopVm m).2.socketExists = false) ∧
    (m.lifecycle = VmState.notStarted ∨ m.lifecycle = VmState.error →
      (stopVm m).1.isOk = false ∧ (stopVm m).2.lifecycle = m.lifecycle) := by
  obtain ⟨l, p, s⟩ := m
  cases l <;> cases p <;> cases s <;> decide

/-- Claim C8 witness: stopping a Running manager succeeds and the manager
is observed Stopped afterwards. -/
theorem claim_C8_witness :
    (stopVm { lifecycle := VmState.running, procAlive := true, socketExists := true }).1.isOk
      = true ∧
    (stopVm { lifecycle := VmState.running, procAlive := true, socketExists := true }).2.lifecycle
      = VmState.stopped ∧
    (stopVm { lifecycle := VmState.running, procAlive := true, socketExists := true }).2.procAlive
      = false ∧
    (stopVm { lifecycle := VmState.running, procAlive := true, socketExists := true }).2.socketExists
      = false :=
  (claim_C8_stop _).1 (by decide)

/-! Claim C10. -/

/-- Claim C10: `list_v_ms` reports the state of every registry entry as
the constant Running, whatever the lifecycle state of its manager is. -/
theorem claim_C10_list_running (entries : List VmEntry) :
    (listVMs entries).map (fun i => i.state)
      = List.replicate entries.length ProtoVmState.running := by
  induction entries with
  | nil => rfl
  | cons e es ih =>
      simp only [listVMs, registryList, List.map_cons, List.length_cons,
        List.replicate_succ] at ih ⊢
      exact congrArg _ ih

/-! Claim C5. -/

/-- Claim C5: when the authorize call fails, both proxies collapse the
result to a denial: the HTTP proxy answers 403 with the `auth error`
reason and the DNS proxy answers with the synthesized REFUSED response;
neither forwards the upstream result. -/
theorem claim_C5_auth_deny (henv : HttpEnv) (denv : DnsEnv) (packet : List Nat)
    (e1 e2 : String) (h1 : henv.authResult = .error e1)
    (h2 : denv.authResult = .error e2) :
    handleRequest henv = .forbidden ("Denied: auth error") ∧
    processDnsQuery denv packet = .ok (buildRefusedResponse packet) := by
  constructor
  · simp only [handleRequest, handleRequestInner, h1]
    rfl
  · simp only [processDnsQuery, h2]
    rfl

/-- Claim C5 witness: a concrete unreachable-authorizer environment gives
403 on HTTP and REFUSED on DNS. -/
theorem claim_C5_witness :
    handleRequest (HttpEnv.mk none 0 (.error ("transport failure")) (.ok (200, "upstream body")))
      = .forbidden ("Denied: auth error") ∧
    processDnsQuery (DnsEnv.mk none 0 (.error ("transport failure")) (.ok [1, 2, 3]))
        [0, 1, 0, 0, 0, 1, 0, 0, 0, 0, 0, 0]
      = .ok (buildRefusedResponse [0, 1, 0, 0, 0, 1, 0, 0, 0, 0, 0, 0]) :=
  claim_C5_auth_deny _ _ _ _ _ rfl rfl

/-! Claim C7. -/

/-- Claim C7 evidence: on a query with the AA flag set (byte 2 = 0x04),
the synthesized response keeps AA set (byte 2 = 0x84), because the mask
0xFD in `build_refused_response` clears the TC bit instead of AA; the
claim (and the comment in the code) require AA cleared. -/
theorem claim_C7_aa_bit :
    buildRefusedResponse refusedFailingQuery = [0, 1, 132, 5, 0, 1, 0, 0, 0, 0, 0, 0] ∧
    ((buildRefusedResponse refusedFailingQuery).getD 2 0) &&& 4 = 4 := by
  decide

/-! Allocator lemmas and claim C6. -/

theorem findFree_some_spec {bits : List Bool} {next idx : Nat}
    (h : findFree bits next = some idx) :
    idx < bits.length ∧ bits.getD idx true = false := by
  unfold findFree at h
  rcases ho : (List.range bits.length).find?
      (fun i => bits.getD ((next + i) % bits.length) true == false) with _ | i
  · rw [ho] at h; simp at h
  · rw [ho] at h
    simp only [Option.map_some'] at h
    have hp := List.find?_some ho
    have hmem := List.mem_of_find?_eq_some ho
    have hlen : 0 < bits.length :=
      Nat.lt_of_le_of_lt (Nat.zero_le i) (List.mem_range.mp hmem)
    rw [Option.some.injEq] at h
    subst h
    exact ⟨Nat.mod_lt _ hlen, by simpa using hp⟩

theorem findFree_none_iff {bits : List Bool} {next : Nat} :
    findFree bits next = none ↔ ∀ i, i < bits.length → bits.getD i true = true := by
  unfold findFree
  rw [Option.map_eq_none', List.find?_eq_none]
  constructor
  · intro h j hj
    have hlen : 0 < bits.length := Nat.lt_of_le_of_lt (Nat.zero_le j) hj
    have hn2lt : next % bits.length < bits.length := Nat.mod_lt _ hlen
    have hilt : (bits.length + j - next % bits.length) % bits.length < bits.length :=
      Nat.mod_lt _ hlen
    have hji : (next + (bits.length + j - next % bits.length) % bits.length) % bits.length
        = j := by
      rw [Nat.add_mod, Nat.mod_eq_of_lt hilt, Nat.add_mod_mod,
        Nat.add_sub_cancel' (Nat.le_of_lt (Nat.lt_of_lt_of_le hn2lt (Nat.le_add_right _ _))),
        Nat.add_mod_left, Nat.mod_eq_of_lt hj]
    have hthis := h _ (List.mem_range.mpr hilt)
    rw [hji] at hthis
    cases hb : bits.getD j true
    · exact absurd (by rw [hb]; rfl) hthis
    · rfl
  · intro h i hmem
    have hilt := List.mem_range.mp hmem
    have hlen : 0 < bits.length := Nat.lt_of_le_of_lt (Nat.zero_le i) hilt
    have hg := h ((next + i) % bits.length) (Nat.mod_lt _ hlen)
    rw [hg]
    decide

theorem allocate_ok_spec {a : IpAllocator} {ip : Nat} {a1 : IpAllocator}
    (h : a.allocate = .ok (ip, a1)) :
    ∃ idx, idx < a.allocated.length ∧ ip = networkBase + 2 + idx ∧
      a.allocated.getD idx true = false ∧
      a1.allocated = a.allocated.set idx true ∧
      a1.nextIndex = (idx + 1) % a.allocated.length := by
  unfold IpAllocator.allocate at h
  rcases hf : findFree a.allocated a.nextIndex with _ | idx
  · rw [hf] at h; simp at h
  · rw [hf] at h
    obtain ⟨hidx, hfalse⟩ := findFree_some_spec hf
    simp only [Except.ok.injEq, Prod.mk.injEq] at h
    exact ⟨idx, hidx, h.1.symm, hfalse, by rw [← h.2], by rw [← h.2]⟩

theorem release_ok_spec {a : IpAllocator} {ip : Nat} {a2 : IpAllocator}
    (h : a.release ip = .ok a2) :
    networkBase + 2 ≤ ip ∧ ip ≤ networkBase + 254 ∧
    ip - networkBase - 2 < a.allocated.length ∧
    a2.allocated = a.allocated.set (ip - networkBase - 2) false := by
  unfold IpAllocator.release at h
  split at h
  · simp at h
  · next hrange =>
    split at h
    · simp at h
    · next hlen =>
      simp only [Except.ok.injEq] at h
      simp only [Bool.or_eq_true, decide_eq_true_eq, not_or] at hrange
      refine ⟨by omega, by omega, by omega, ?_⟩
      rw [← h]

theorem runAllocOps_length (ops : List AllocOp) (a : IpAllocator) :
    (runAllocOps ops a).allocated.length = a.allocated.length := by
  induction ops generalizing a with
  | nil => rfl
  | cons op ops ih =>
    cases op with
    | alloc =>
      rcases h : a.allocate with e | ⟨ip1, a1⟩
      · simp only [runAllocOps, h]
        exact ih a
      · obtain ⟨idx, _, _, _, hset, _⟩ := allocate_ok_spec h
        simp only [runAllocOps, h]
        rw [ih a1, hset, List.length_set]
    | release ip =>
      rcases h : a.release ip with e | a2
      · simp only [runAllocOps, h]
        exact ih a
      · obtain ⟨_, _, _, hset⟩ := release_ok_spec h
        simp only [runAllocOps, h]
        rw [ih a2, hset, List.length_set]

/-- Claim C6: along any allocate/release history from a fresh allocator,
a successful allocate returns an address in 192.168.100.2 to .254 whose
bitmap slot was clear and is set afterwards (no live address is returned
twice); allocate fails exactly when all 253 slots are set; and a
successful release leaves the slot of the released address clear, so the
address is back in the pool for the next full sweep. -/
theorem claim_C6_allocator (ops : List AllocOp) :
    (∀ ip a2, (runAllocOps ops IpAllocator.fresh).allocate = .ok (ip, a2) →
       (networkBase + 2 ≤ ip ∧ ip ≤ networkBase + 254) ∧
       (runAllocOps ops IpAllocator.fresh).allocated.getD (ip - networkBase - 2) true = false ∧
       a2.allocated.getD (ip - networkBase - 2) false = true) ∧
    ((runAllocOps ops IpAllocator.fresh).allocate.isOk = false ↔
       ∀ i, i < 253 → (runAllocOps ops IpAllocator.fresh).allocated.getD i true = true) ∧
    (∀ ip a2, (runAllocOps ops IpAllocator.fresh).release ip = .ok a2 →
       a2.allocated.getD (ip - networkBase - 2) true = false) := by
  have hlen : (runAllocOps ops IpAllocator.fresh).allocated.length = 253 := by
    rw [runAllocOps_length]
    exact List.length_replicate _ _
  refine ⟨?_, ?_, ?_⟩
  · intro ip a2 h
    obtain ⟨idx, hidx, hip, hfalse, hset, _⟩ := allocate_ok_spec h
    have hdiff : ip - networkBase - 2 = idx := by omega
    rw [hdiff, hip]
    refine ⟨⟨by omega, by omega⟩, hfalse, ?_⟩
    rw [hset]
    exact getD_set_self_bool _ _ _ _ hidx
  · rw [← hlen]
    constructor
    · intro hok i hi
      rcases hf : findFree (runAllocOps ops IpAllocator.fresh).allocated
          (runAllocOps ops IpAllocator.fresh).nextIndex with _ | idx
      · exact findFree_none_iff.mp hf i hi
      · exfalso
        unfold IpAllocator.allocate at hok
        rw [hf] at hok
        simp [Except.isOk, Except.toBool] at hok
    · intro hall
      unfold IpAllocator.allocate
      rw [findFree_none_iff.mpr hall]
      rfl
  · intro ip a2 h
    obtain ⟨_, _, hlt, hset⟩ := release_ok_spec h
    rw [hset]
    exact getD_set_self_bool _ _ _ _ hlt

set_option maxRecDepth 8192 in
/-- Claim C6 witness: from the fresh allocator, the first allocate returns
192.168.100.2, whose slot was clear before and set after. -/
theorem claim_C6_witness :
    (networkBase + 2 ≤ networkBase + 2 ∧ networkBase + 2 ≤ networkBase + 254) ∧
    (runAllocOps [] IpAllocator.fresh).allocated.getD
      (networkBase + 2 - networkBase - 2) true = false ∧
    (IpAllocator.mk ((List.replicate 253 false).set 0 true) 1).allocated.getD
      (networkBase + 2 - networkBase - 2) false = true :=
  (claim_C6_allocator []).1 (networkBase + 2)
    (IpAllocator.mk ((List.replicate 253 false).set 0 true) 1) (by rfl)

/-! Network-fabric lemmas, claims C3 and C4. -/

theorem links_ensureRule (st : HostNet) (r : IptRule) : (ensureRule st r).links = st.links := by
  unfold ensureRule addRule
  split <;> rfl

theorem links_setup_chain (s : HostNet) (b : String) :
    (ensureEgressFilterRules (ensureProxyRedirectRules s b) b).links = s.links := by
  unfold ensureEgressFilterRules ensureProxyRedirectRules
  simp only [links_ensureRule]

theorem mem_rules_ensureRule_self (st : HostNet) (r : IptRule) : r ∈ (ensureRule st r).rules := by
  unfold ensureRule addRule
  split
  · next hc => exact List.elem_iff.mp hc
  · simp

theorem mem_rules_ensureRule_of_mem (st : HostNet) (r x : IptRule) (h : x ∈ st.rules) :
    x ∈ (ensureRule st r).rules := by
  unfold ensureRule addRule
  split
  · exact h
  · simp [h]

theorem mem_rules_of_ensureRule (st : HostNet) (r x : IptRule)
    (h : x ∈ (ensureRule st r).rules) : x ∈ st.rules ∨ x = r := by
  unfold ensureRule addRule at h
  split at h
  · exact .inl h
  · simpa using h

theorem createBridge_ok (st : HostNet) (name : String) (gw : Nat) :
    createBridge st name gw = .ok
      { links := (setLinkUp (addAddr (addLink st name) name gw 24) name).links,
        ipForward := true,
        rules := st.rules ++ bridgeRuleSet name } := by
  rcases hfi : (addLink st name).links.findIdx? (fun l => l.name == name) with _ | i
  · exfalso
    rw [List.findIdx?_eq_none_iff] at hfi
    have := hfi { name := name, addrs := [], isUp := false } (by simp [addLink])
    simp at this
  · simp only [createBridge, getLinkIdx, hfi]
    simp only [addEgressFilterRules, addProxyRedirectRules, addRule, enableIpForwarding,
      bridgeRuleSet]
    simp [List.append_assoc, setLinkUp, addAddr, addLink]

theorem links_map_fresh (st : HostNet) (name : String) (gw : Nat)
    (h : ∀ l ∈ st.links, (l.name == name) = false) :
    (setLinkUp (addAddr (addLink st name) name gw 24) name).links
      = st.links ++ [{ name := name, addrs := [(gw, 24)], isUp := true }] := by
  unfold setLinkUp addAddr addLink
  simp only [List.map_append, List.map_map]
  congr 1
  · have hid : ∀ l2 ∈ st.links,
        ((fun l => if (l.name == name) = true then
            { l with isUp := true } else l) ∘
         (fun l => if (l.name == name) = true then
            { l with addrs := l.addrs ++ [(gw, 24)] } else l)) l2 = id l2 := by
      intro l2 hl
      simp [Function.comp, h l2 hl]
    rw [List.map_congr_left hid, List.map_id]
  · simp

/-- Claim C3: when no link named br0 exists, the bridge setup succeeds and
the resulting host state holds a bridge br0 that is up and carries the
address 192.168.100.1/24. -/
theorem claim_C3_bridge_create (st : HostNet) (h : linkExists st ("br0") = false) :
    ∃ st2, nmEnsureBridge st = .ok st2 ∧
      ({ name := "br0", addrs := [(networkBase + 1, 24)], isUp := true } : Link) ∈ st2.links := by
  have hall : ∀ l ∈ st.links, (l.name == "br0") = false := by
    intro l hl
    have := List.any_eq_false.mp h l hl
    simpa using this
  unfold nmEnsureBridge ensureBridge
  rw [h]
  simp only [Bool.false_eq_true, if_false, createBridge_ok]
  refine ⟨_, rfl, ?_⟩
  rw [links_setup_chain]
  simp only [enableIpForwarding]
  rw [links_map_fresh st ("br0") (networkBase + 1) hall]
  simp

/-- Claim C3 witness: on a host with no links at all, the bridge setup
creates the configured br0. -/
theorem claim_C3_witness :
    ∃ st2, nmEnsureBridge freshHost = .ok st2 ∧
      ({ name := "br0", addrs := [(networkBase + 1, 24)], isUp := true } : Link) ∈ st2.links :=
  claim_C3_bridge_create freshHost (by decide)

/-- Claim C4 counterexample: run the bridge setup on a host with no rules;
it installs exactly the four NAT redirects and the FORWARD drop, and no
installed rule carries an ACCEPT target or a conntrack ESTABLISHED match,
so the claimed fifth rule (accept ESTABLISHED/RELATED) is never installed. -/
theorem claim_C4_counterexample :
    bridgeSetupResultRules = bridgeRuleSet ("br0") ∧
    bridgeSetupResultRules.all
      (fun r => !(r.args.contains ("ACCEPT")) &&
        !(r.args.any (fun a => containsSubstr a ("ESTABLISHED")))) = true := by
  decide

/-- Claim C4 (amended): every invocation of the bridge setup returns
success and ensures the presence of exactly the five rules the code
defines (redirect 80 to 10080, 443 to 10443, 53 to 10053 over UDP and TCP,
and a final FORWARD drop on the bridge); every rule present afterwards was
present before or is one of these five, and in particular no
ESTABLISHED/RELATED accept rule is ever installed. -/
theorem claim_C4_rules (st : HostNet) :
    ∃ st2, nmEnsureBridge st = .ok st2 ∧
      (∀ r ∈ bridgeRuleSet ("br0"), r ∈ st2.rules) ∧
      (∀ r ∈ st2.rules, r ∈ st.rules ∨ r ∈ bridgeRuleSet ("br0")) := by
  unfold nmEnsureBridge ensureBridge
  rcases hex : linkExists st ("br0") with _ | _
  · simp only [Bool.false_eq_true, if_false, createBridge_ok]
    refine ⟨_, rfl, ?_, ?_⟩
    · intro r hr
      unfold ensureEgressFilterRules ensureProxyRedirectRules
      have hbase : r ∈ (enableIpForwarding
          { links := (setLinkUp (addAddr (addLink st ("br0")) ("br0") (networkBase + 1) 24)
              ("br0")).links,
            ipForward := true, rules := st.rules ++ bridgeRuleSet ("br0") }).rules := by
        simp only [enableIpForwarding]
        exact List.mem_append_right _ hr
      exact mem_rules_ensureRule_of_mem _ _ _ (mem_rules_ensureRule_of_mem _ _ _
        (mem_rules_ensureRule_of_mem _ _ _ (mem_rules_ensureRule_of_mem _ _ _
          (mem_rules_ensureRule_of_mem _ _ _ hbase))))
    · intro r hr
      unfold ensureEgressFilterRules ensureProxyRedirectRules at hr
      rcases mem_rules_of_ensureRule _ _ _ hr with hr1 | heq
      · rcases mem_rules_of_ensureRule _ _ _ hr1 with hr2 | heq
        · rcases mem_rules_of_ensureRule _ _ _ hr2 with hr3 | heq
          · rcases mem_rules_of_ensureRule _ _ _ hr3 with hr4 | heq
            · rcases mem_rules_of_ensureRule _ _ _ hr4 with hr5 | heq
              · simp only [enableIpForwarding] at hr5
                rcases List.mem_append.mp hr5 with h5 | h5
                · exact .inl h5
                · exact .inr h5
              · subst heq; right; simp [bridgeRuleSet]
            · subst heq; right; simp [bridgeRuleSet]
          · subst heq; right; simp [bridgeRuleSet]
        · subst heq; right; simp [bridgeRuleSet]
      · subst heq; right; simp [bridgeRuleSet]
  · simp only [if_true]
    refine ⟨_, rfl, ?_, ?_⟩
    · intro r hr
      unfold ensureEgressFilterRules ensureProxyRedirectRules
      fin_cases hr
      · exact mem_rules_ensureRule_of_mem _ _ _ (mem_rules_ensureRule_of_mem _ _ _
          (mem_rules_ensureRule_of_mem _ _ _ (mem_rules_ensureRule_of_mem _ _ _
            (mem_rules_ensureRule_self _ _))))
      · exact mem_rules_ensureRule_of_mem _ _ _ (mem_rules_ensureRule_of_mem _ _ _
          (mem_rules_ensureRule_of_mem _ _ _ (mem_rules_ensureRule_self _ _)))
      · exact mem_rules_ensureRule_of_mem _ _ _ (mem_rules_ensureRule_of_mem _ _ _
          (mem_rules_ensureRule_self _ _))
      · exact mem_rules_ensureRule_of_mem _ _ _ (mem_rules_ensureRule_self _ _)
      · exact mem_rules_ensureRule_self _ _
    · intro r hr
      unfold ensureEgressFilterRules ensureProxyRedirectRules at hr
      rcases mem_rules_of_ensureRule _ _ _ hr with hr1 | heq
      · rcases mem_rules_of_ensureRule _ _ _ hr1 with hr2 | heq
        · rcases mem_rules_of_ensureRule _ _ _ hr2 with hr3 | heq
          · rcases mem_rules_of_ensureRule _ _ _ hr3 with hr4 | heq
            · rcases mem_rules_of_ensureRule _ _ _ hr4 with hr5 | heq
              · exact .inl hr5
              · subst heq; right; simp [bridgeRuleSet]
            · subst heq; right; simp [bridgeRuleSet]
          · subst heq; right; simp [bridgeRuleSet]
        · subst heq; right; simp [bridgeRuleSet]
      · subst heq; right; simp [bridgeRuleSet]

/-- Claim C4 witness: on a host with no rules, the final FORWARD drop rule
is among the installed rules. -/
theorem claim_C4_witness :
    ∃ st2, nmEnsureBridge freshHost = .ok st2 ∧ dropAllRule ("br0") ∈ st2.rules := by
  obtain ⟨st2, hok, hmem, _⟩ := claim_C4_rules freshHost
  exact ⟨st2, hok, hmem _ (by simp [bridgeRuleSet])⟩

/-! Create-VM lemmas and claim C1. -/

theorem links_tap_fresh (net : HostNet) (tap : String)
    (h : ∀ l ∈ net.links, (l.name == tap) = false) :
    (setLinkUp (addLink net tap) tap).links
      = net.links ++ [{ name := tap, addrs := [], isUp := true }] := by
  unfold setLinkUp addLink
  simp only [List.map_append]
  congr 1
  · have hid : ∀ l2 ∈ net.links,
        (fun l => if (l.name == tap) = true then { l with isUp := true } else l) l2
          = id l2 := by
      intro l2 hl
      simp [h l2 hl]
    rw [List.map_congr_left hid, List.map_id]
  · simp

theorem allocate_release_restores (a : IpAllocator) (hlen : a.allocated.length = 253)
    {ip : Nat} {a1 : IpAllocator} (h : a.allocate = .ok (ip, a1)) :
    a1.release ip = .ok (IpAllocator.mk a.allocated a1.nextIndex) := by
  obtain ⟨idx, hidx, hip, hfalse, hset, _⟩ := allocate_ok_spec h
  rw [hlen] at hidx
  unfold IpAllocator.release
  split
  · next hc =>
    exfalso
    simp only [Bool.or_eq_true, decide_eq_true_eq] at hc
    omega
  · split
    · next hc =>
      exfalso
      rw [hset, List.length_set, hlen] at hc
      omega
    · have hdiff : ip - networkBase - 2 = idx := by omega
      rw [hdiff, hset, List.set_set, set_false_of_getD_false _ _ hfalse]

set_option maxRecDepth 8192 in
/-- Claim C1 counterexample: with every primitive succeeding except the
netlink attach of the TAP to the bridge, `create_vm` on a fresh server
returns an error yet the host state differs from the pre-call state (the
created TAP device is left behind). -/
theorem claim_C1_counterexample :
    (createVm envAttachFail 0 ("tap-x") freshSrv).1.isOk = false ∧
    touched (createVm envAttachFail 0 ("tap-x") freshSrv).2 ≠ touched freshSrv := by
  decide

/-- Claim C1 (amended): `create_vm` either succeeds and registers the VM,
or fails; failures at IP allocation, at the TAP ioctl, or at VM start are
fully rolled back (bitmap, links, rules and registry as before), but a
failure while attaching the TAP or installing its source-IP pin leaves the
created TAP device behind (with the IP released and no pin installed), and
a registry-insert failure performs no rollback at all. -/
theorem claim_C1_rollback (env : CreateEnv) (id : Nat) (tapName : String) (st : SrvState)
    (hlen : st.alloc.allocated.length = 253)
    (htap : ∀ l ∈ st.net.links, (l.name == tapName) = false)
    (hpin : ∀ ip2, pinRule tapName ip2 ∉ st.net.rules) :
    (st.alloc.allocate.isOk = false →
       (createVm env id tapName st).1.isOk = false ∧
       (createVm env id tapName st).2 = st) ∧
    (st.alloc.allocate.isOk = true → env.tapOk = false →
       (createVm env id tapName st).1.isOk = false ∧
       touched (createVm env id tapName st).2 = touched st) ∧
    (st.alloc.allocate.isOk = true → env.tapOk = true →
     (env.attachOk = false ∨ env.pinOk = false) →
       (createVm env id tapName st).1.isOk = false ∧
       (createVm env id tapName st).2.net.links
         = st.net.links ++ [{ name := tapName, addrs := [], isUp := true }] ∧
       (createVm env id tapName st).2.alloc.allocated = st.alloc.allocated ∧
       (createVm env id tapName st).2.net.rules = st.net.rules ∧
       (createVm env id tapName st).2.registry = st.registry) ∧
    (st.alloc.allocate.isOk = true → env.tapOk = true → env.attachOk = true →
     env.pinOk = true → env.startOk = false →
       (createVm env id tapName st).1.isOk = false ∧
       touched (createVm env id tapName st).2 = touched st) ∧
    (st.alloc.allocate.isOk = true → env.tapOk = true → env.attachOk = true →
     env.pinOk = true → env.startOk = true → id ∈ st.registry →
       (createVm env id tapName st).1.isOk = false ∧
       (createVm env id tapName st).2.registry = st.registry) ∧
    (st.alloc.allocate.isOk = true → env.tapOk = true → env.attachOk = true →
     env.pinOk = true → env.startOk = true → id ∉ st.registry →
       (createVm env id tapName st).1.isOk = true ∧
       (createVm env id tapName st).2.registry = st.registry ++ [id]) := by
  refine ⟨?_, ?_, ?_, ?_, ?_, ?_⟩
  · intro h
    rcases halloc : st.alloc.allocate with e | ⟨ip, a1⟩
    · simp only [createVm, halloc]
      exact ⟨rfl, trivial⟩
    · rw [halloc] at h
      simp [Except.isOk, Except.toBool] at h
  · intro h1 h2
    rcases halloc : st.alloc.allocate with e | ⟨ip, a1⟩
    · rw [halloc] at h1; simp [Except.isOk, Except.toBool] at h1
    · simp only [createVm, halloc, nmCreateTap, h2, Bool.not_false, if_true,
        allocate_release_restores st.alloc hlen halloc]
      exact ⟨rfl, rfl⟩
  · intro h1 h2 h3
    rcases halloc : st.alloc.allocate with e | ⟨ip, a1⟩
    · rw [halloc] at h1; simp [Except.isOk, Except.toBool] at h1
    · have hlinks := links_tap_fresh st.net tapName htap
      rcases h3 with h3 | h3
      · simp only [createVm, halloc, nmCreateTap, h2, h3, Bool.not_true, Bool.not_false,
          if_false, if_true, allocate_release_restores st.alloc hlen halloc]
        exact ⟨rfl, hlinks, rfl, rfl, rfl⟩
      · cases h4 : env.attachOk
        · simp only [createVm, halloc, nmCreateTap, h2, h4, Bool.not_true, Bool.not_false,
            if_false, if_true, allocate_release_restores st.alloc hlen halloc]
          exact ⟨rfl, hlinks, rfl, rfl, rfl⟩
        · simp only [createVm, halloc, nmCreateTap, h2, h3, h4, Bool.not_true, Bool.not_false,
            if_false, if_true, allocate_release_restores st.alloc hlen halloc]
          exact ⟨rfl, hlinks, rfl, rfl, rfl⟩
  · intro h1 h2 h3 h4 h5
    rcases halloc : st.alloc.allocate with e | ⟨ip, a1⟩
    · rw [halloc] at h1; simp [Except.isOk, Except.toBool] at h1
    · have hlinks := links_tap_fresh st.net tapName htap
      simp only [createVm, halloc, nmCreateTap, h2, h3, h4, h5, Bool.not_true, Bool.not_false,
        if_false, if_true, allocate_release_restores st.alloc hlen halloc]
      refine ⟨rfl, ?_⟩
      have hrules : (setLinkUp (addLink st.net tapName) tapName).rules = st.net.rules := rfl
      have herase : (st.net.rules ++ [pinRule tapName ip]).erase (pinRule tapName ip)
          = st.net.rules := by
        rw [List.erase_append_right _ (hpin ip), List.erase_cons_head, List.append_nil]
      have heraseP : (st.net.links ++
          [({ name := tapName, addrs := [], isUp := true } : Link)]).eraseP
          (fun l => l.name == tapName) = st.net.links := by
        rw [List.eraseP_append_right _ (by intro b hb; simp [htap b hb])]
        simp
      unfold touched nmDeleteTap delLink delRule addRule
      simp [hrules, hlinks, herase, heraseP]
  · intro h1 h2 h3 h4 h5 h6
    rcases halloc : st.alloc.allocate with e | ⟨ip, a1⟩
    · rw [halloc] at h1; simp [Except.isOk, Except.toBool] at h1
    · have hcont : st.registry.contains id = true := List.elem_iff.mpr h6
      simp only [createVm, halloc, nmCreateTap, h2, h3, h4, h5, hcont, Bool.not_true,
        Bool.not_false, if_false, if_true]
      exact ⟨rfl, rfl⟩
  · intro h1 h2 h3 h4 h5 h6
    rcases halloc : st.alloc.allocate with e | ⟨ip, a1⟩
    · rw [halloc] at h1; simp [Except.isOk, Except.toBool] at h1
    · have hcont : st.registry.contains id = false := by
        cases hc : st.registry.contains id
        · rfl
        · exact absurd (List.elem_iff.mp hc) h6
      simp only [createVm, halloc, nmCreateTap, h2, h3, h4, h5, hcont, Bool.not_true,
        Bool.not_false, if_false, if_true]
      exact ⟨rfl, rfl⟩

set_option maxRecDepth 8192 in
/-- Claim C1 witness: on a fresh server with every primitive succeeding,
`create_vm` succeeds and the VM is registered. -/
theorem claim_C1_witness :
    (createVm envAllOk 0 ("tap-x") freshSrv).1.isOk = true ∧
    (createVm envAllOk 0 ("tap-x") freshSrv).2.registry = [] ++ [0] :=
  (claim_C1_rollback envAllOk 0 ("tap-x") freshSrv (by decide)
      (by intro l hl; simp [freshSrv, freshHost] at hl)
      (by intro ip2; simp [freshSrv, freshHost])).2.2.2.2.2
    (by decide) rfl rfl rfl rfl (by simp [freshSrv])

/-! SSE reassembly lemmas and claim C9. -/

theorem anthropicStep_contentText (acc : AnthropicAcc) (e : SseEvent) :
    (anthropicStep acc e).contentText = acc.contentText ++ textDeltaOf e := by
  unfold anthropicStep textDeltaOf
  rcases hj : jsonParse e.data with _ | json
  · simp
  · simp only []
    by_cases h1 : (e.eventType.getD ("") == "message_start") = true
    · simp only [h1, if_true]
      rcases hm : json.get ("message") with _ | msg <;> simp [hm]
    · by_cases h2 : (e.eventType.getD ("") == "content_block_delta") = true
      · simp only [h1, h2, if_true, if_false]
        rcases hd : json.get ("delta") with _ | delta
        · simp [hd]
        · simp only [hd]
          by_cases h3 : (((delta.get ("type")).bind Json.asStr) == some ("text_delta")) = true
          · simp only [h3, if_true]
            rcases ht : (delta.get ("text")).bind Json.asStr with _ | t <;> simp [ht]
          · simp [h3]
      · by_cases h4 : (e.eventType.getD ("") == "message_delta") = true
        · simp only [h1, h2, h4, if_true, if_false]
          rcases hd : json.get ("delta") with _ | delta
          · simp [hd]
          · simp only [hd]
            rcases hs : delta.get ("stop_reason") with _ | sr <;> simp [hs]
        · simp [h1, h2, h4]

theorem anthropicStep_outputTokens (acc : AnthropicAcc) (e : SseEvent) :
    (anthropicStep acc e).outputTokens = messageDeltaTokens e acc.outputTokens := by
  unfold anthropicStep messageDeltaTokens
  rcases hj : jsonParse e.data with _ | json
  · simp
  · simp only []
    by_cases h1 : (e.eventType.getD ("") == "message_start") = true
    · simp only [h1, if_true]
      rcases hm : json.get ("message") with _ | msg <;> simp [hm]
    · by_cases h2 : (e.eventType.getD ("") == "content_block_delta") = true
      · simp only [h1, h2, if_true, if_false]
        rcases hd : json.get ("delta") with _ | delta
        · simp [hd]
        · simp only [hd]
          by_cases h3 : (((delta.get ("type")).bind Json.asStr) == some ("text_delta")) = true
          · simp only [h3, if_true]
            rcases ht : (delta.get ("text")).bind Json.asStr with _ | t <;> simp [ht]
          · simp [h3]
      · by_cases h4 : (e.eventType.getD ("") == "message_delta") = true
        · simp only [h1, h2, h4, if_true, if_false]
          rcases hd : json.get ("delta") with _ | delta
          · simp [hd]
          · simp only [hd]
            rcases hs : delta.get ("stop_reason") with _ | sr <;> simp [hs]
        · simp [h1, h2, h4]

theorem foldl_contentText (events : List SseEvent) (acc : AnthropicAcc) :
    (events.foldl anthropicStep acc).contentText
      = events.foldl (fun s e => s ++ textDeltaOf e) acc.contentText := by
  induction events generalizing acc with
  | nil => rfl
  | cons e es ih =>
      simp only [List.foldl_cons]
      rw [ih, anthropicStep_contentText]

theorem foldl_outputTokens (events : List SseEvent) (acc : AnthropicAcc) :
    (events.foldl anthropicStep acc).outputTokens
      = events.foldl (fun p e => messageDeltaTokens e p) acc.outputTokens := by
  induction events generalizing acc with
  | nil => rfl
  | cons e es ih =>
      simp only [List.foldl_cons]
      rw [ih, anthropicStep_outputTokens]

set_option maxRecDepth 100000 in
/-- Claim C9: for every event stream, the reassembled Anthropic messages
response has `content[0].text` equal to the in-order concatenation of all
text-delta texts and its output-token count comes from the (last)
`message_delta` event; and on the concrete scenario stream (message_start,
deltas `Hello ` and `world`, message_delta with stop reason end_turn and
85 output tokens, delivered with content type `text/event-stream`) the
processed response has `content[0].text = "Hello world"` and
`usage.output_tokens = 85`. -/
theorem claim_C9_sse :
    (∀ events : List SseEvent,
       (reassembleAnthropicMessages events).1.pointer ("/content/0/text")
         = some (Json.str (events.foldl (fun s e => s ++ textDeltaOf e) (""))) ∧
       (reassembleAnthropicMessages events).2.2.2
         = events.foldl (fun p e => messageDeltaTokens e p) none) ∧
    ((processResponseMessages (some ("text/event-stream")) sseScenarioBody).1.pointer
        ("/content/0/text") = some (Json.str ("Hello world")) ∧
     (processResponseMessages (some ("text/event-stream")) sseScenarioBody).2.2.2
        = some 85 ∧
     (processResponseMessages (some ("text/event-stream")) sseScenarioBody).1.pointer
        ("/usage/output_tokens") = some (Json.num 85)) := by
  constructor
  · intro events
    constructor
    · have h0 : (reassembleAnthropicMessages events).1.pointer ("/content/0/text")
          = some (Json.str ((events.foldl anthropicStep
            (AnthropicAcc.mk Json.null none none none Json.null (""))).contentText)) := rfl
      rw [h0, foldl_contentText]
    · have h0 : (reassembleAnthropicMessages events).2.2.2
          = (events.foldl anthropicStep
            (AnthropicAcc.mk Json.null none none none Json.null (""))).outputTokens := rfl
      rw [h0, foldl_outputTokens]
  · exact ⟨rfl, rfl, rfl⟩

end Clawpot
